import Mathlib

/-!
Shallow embedding of `atomic_reactor/plugins/build_orchestrate_build.py`
(the multi-platform build orchestrator plugin) and proofs about it.

Conventions of the embedding:
* Python `datetime` instants and `timedelta` durations are modelled as
  microseconds (`Int`), the resolution of Python datetimes.  The Unix epoch
  (`datetime.utcfromtimestamp(0)`) is `0`.
* Python's stable `sorted(..., key=f)` is modelled by a stable insertion
  sort `sortByKey f`; stable sorts agree extensionally, so this is faithful.
* Remote calls (probing a cluster's load, creating a worker build,
  monitoring it, cancelling it) are resolved by a deterministic oracle
  (`OrchEnv`) indexed by a running call counter, and `while` loops carry
  explicit fuel; theorems about terminating runs condition on the fuel
  sufficing.
* Exceptions are modelled by `Except`; the only exception *class* the
  plugin's control flow distinguishes is `OsbsException` versus everything
  else, modelled by `PyExc.osbs` / `PyExc.other`.
-/

deriving instance DecidableEq for Except

namespace AtomicReactor

/-- Instants and durations in microseconds (Python datetime resolution). -/
abbrev Micros := Int

/-- Microseconds per second. -/
def usPerSecond : Int := 1000000

/-- Microseconds per day. -/
def usPerDay : Int := 86400000000

/-- The `.seconds` component of a Python `timedelta` holding `t`
microseconds: after normalisation into (days, seconds, microseconds),
the seconds field is `(t mod one day) div one second`. -/
def tdSeconds (t : Micros) : Int := (t % usPerDay) / usPerSecond

/-- Embedding of `ClusterRetryContext.__init__`: per-cluster failure
counter and retry deadline. -/
structure ClusterRetryContext where
  fails : Nat
  retry_at : Micros
  max_cluster_fails : Nat
deriving DecidableEq

/-- Fresh context as built by `ClusterRetryContext(max_cluster_fails)`:
`fails = 0`, `retry_at = datetime.utcfromtimestamp(0)` (the epoch). -/
def ClusterRetryContext.init (max_cluster_fails : Nat) : ClusterRetryContext :=
  { fails := 0, retry_at := 0, max_cluster_fails := max_cluster_fails }

/-- Embedding of the `failed` property: `self.fails >= self.max_cluster_fails`. -/
def ClusterRetryContext.failed (c : ClusterRetryContext) : Bool :=
  decide (c.max_cluster_fails ≤ c.fails)

/-- Embedding of the `in_retry_wait` property: `datetime.now() < self.retry_at`. -/
def ClusterRetryContext.in_retry_wait (c : ClusterRetryContext) (now : Micros) : Bool :=
  decide (now < c.retry_at)

/-- Embedding of `try_again_later(seconds)`: if not failed, increment
`fails` and set `retry_at := now + delay` (delay in microseconds). -/
def ClusterRetryContext.try_again_later (c : ClusterRetryContext)
    (now : Micros) (delay : Micros) : ClusterRetryContext :=
  if c.failed then c
  else { c with fails := c.fails + 1, retry_at := now + delay }

/-- Python `min` over a list (`None` when empty). -/
def listMin : List Micros → Option Micros
  | [] => none
  | x :: xs =>
    match listMin xs with
    | none => some x
    | some m => some (min x m)

/-- Embedding of the free function `wait_for_any_cluster(contexts)`.
It takes the contexts dictionary's values; the `ValueError` from `min`
of an empty sequence becomes `AllClustersFailedException`, modelled as
`.error ()`.  On success it returns the number of whole seconds slept:
`max(timedelta(0), earliest_retry_at - now).seconds`. -/
def wait_for_any_cluster (now : Micros) (contexts : List ClusterRetryContext) :
    Except Unit Int :=
  match listMin ((contexts.filter (fun c => !c.failed)).map (·.retry_at)) with
  | none => .error ()
  | some earliest => .ok (tdSeconds (max 0 (earliest - now)))

/-! Stable sort by key, modelling Python's stable `sorted(..., key=f)`. -/

/-- Insert `x` before the first element whose key is not smaller,
keeping earlier elements with equal keys in front (stability). -/
def sortedInsert {α β : Type} [LinearOrder β] (f : α → β) (x : α) :
    List α → List α
  | [] => [x]
  | y :: ys => if f x ≤ f y then x :: y :: ys else y :: sortedInsert f x ys

/-- Stable insertion sort by key `f`, ascending. -/
def sortByKey {α β : Type} [LinearOrder β] (f : α → β) : List α → List α
  | [] => []
  | x :: xs => sortedInsert f x (sortByKey f xs)

theorem mem_sortedInsert {α β : Type} [LinearOrder β] (f : α → β) (x a : α) :
    ∀ t : List α, a ∈ sortedInsert f x t ↔ a = x ∨ a ∈ t := by
  intro t
  induction t with
  | nil => simp [sortedInsert]
  | cons y ys ih =>
    by_cases h : f x ≤ f y
    · simp [sortedInsert, h]
    · simp only [sortedInsert, if_neg h, List.mem_cons, ih]
      tauto

theorem mem_sortByKey {α β : Type} [LinearOrder β] (f : α → β) (a : α) :
    ∀ l : List α, a ∈ sortByKey f l ↔ a ∈ l := by
  intro l
  induction l with
  | nil => simp [sortByKey]
  | cons x xs ih =>
    simp [sortByKey, mem_sortedInsert, ih]

/-- Stability of `sortedInsert`: inserting an element that was *before*
every element of `t` in the original list preserves the combined
"key strictly smaller, or keys equal and original order" invariant. -/
theorem pairwise_sortedInsert {α β : Type} [LinearOrder β] (f : α → β)
    (R : α → α → Prop) (x : α) :
    ∀ t : List α,
      t.Pairwise (fun a b => f a < f b ∨ (f a = f b ∧ R a b)) →
      (∀ y ∈ t, R x y) →
      (sortedInsert f x t).Pairwise (fun a b => f a < f b ∨ (f a = f b ∧ R a b)) := by
  intro t
  induction t with
  | nil => intro _ _; simp [sortedInsert]
  | cons y ys ih =>
    intro hP hR
    rcases List.pairwise_cons.mp hP with ⟨hy, hys⟩
    by_cases h : f x ≤ f y
    · rw [sortedInsert, if_pos h]
      refine List.pairwise_cons.mpr ⟨?_, hP⟩
      intro z hz
      rcases List.mem_cons.mp hz with rfl | hzys
      · rcases lt_or_eq_of_le h with hlt | heq
        · exact Or.inl hlt
        · exact Or.inr ⟨heq, hR z (List.mem_cons_self _ _)⟩
      · have hyz : f y ≤ f z := by
          rcases hy z hzys with hlt | ⟨heq, _⟩
          · exact le_of_lt hlt
          · exact le_of_eq heq
        rcases lt_or_eq_of_le (le_trans h hyz) with hlt | heq
        · exact Or.inl hlt
        · exact Or.inr ⟨heq, hR z (List.mem_cons_of_mem _ hzys)⟩
    · rw [sortedInsert, if_neg h]
      refine List.pairwise_cons.mpr ⟨?_, ?_⟩
      · intro z hz
        rcases (mem_sortedInsert f x z ys).mp hz with rfl | hzys
        · exact Or.inl (lt_of_not_le h)
        · exact hy z hzys
      · exact ih hys (fun z hz => hR z (List.mem_cons_of_mem _ hz))

theorem pairwise_trivial {α : Type} (l : List α) :
    l.Pairwise (fun _ _ => True) := by
  induction l with
  | nil => exact List.Pairwise.nil
  | cons x xs ih => exact List.pairwise_cons.mpr ⟨fun _ _ => trivial, ih⟩

/-- Stability of `sortByKey`: if the input satisfies `R` pairwise, the
output is pairwise ordered by "key strictly smaller, or keys equal and
`R` (original relative order)". -/
theorem pairwise_sortByKey {α β : Type} [LinearOrder β] (f : α → β)
    (R : α → α → Prop) :
    ∀ l : List α, l.Pairwise R →
      (sortByKey f l).Pairwise (fun a b => f a < f b ∨ (f a = f b ∧ R a b)) := by
  intro l
  induction l with
  | nil => intro _; exact List.Pairwise.nil
  | cons x xs ih =>
    intro hP
    rcases List.pairwise_cons.mp hP with ⟨hx, hxs⟩
    exact pairwise_sortedInsert f R x (sortByKey f xs) (ih hxs)
      (fun y hy => hx y ((mem_sortByKey f y xs).mp hy))

/-- Result of sorting an already-`R`-pairwise list twice: first by key
`g`, then (stably) by key `f`.  This is the composite order of the two
`sorted` calls in `get_clusters`. -/
theorem pairwise_sortByKey_twice {α β γ : Type} [LinearOrder β] [LinearOrder γ]
    (f : α → β) (g : α → γ) (l : List α) :
    (sortByKey f (sortByKey g l)).Pairwise
      (fun a b => f a < f b ∨ (f a = f b ∧ g a ≤ g b)) := by
  have h1 : (sortByKey g l).Pairwise (fun a b => g a ≤ g b) := by
    have := pairwise_sortByKey g (fun _ _ => True) l (pairwise_trivial l)
    exact this.imp (fun h => by
      rcases h with hlt | ⟨heq, _⟩
      · exact le_of_lt hlt
      · exact le_of_eq heq)
  exact pairwise_sortByKey f (fun a b => g a ≤ g b) _ h1

/-! Lemmas about `listMin` (Python `min` over a list). -/

theorem listMin_eq_none_iff (l : List Micros) : listMin l = none ↔ l = [] := by
  cases l with
  | nil => simp [listMin]
  | cons x xs =>
    simp only [listMin]
    cases listMin xs <;> simp

theorem listMin_mem_le (l : List Micros) (m : Micros) (h : listMin l = some m) :
    m ∈ l ∧ ∀ x ∈ l, m ≤ x := by
  induction l generalizing m with
  | nil => simp [listMin] at h
  | cons x xs ih =>
    simp only [listMin] at h
    cases hxs : listMin xs with
    | none =>
      rw [hxs] at h
      have hnil : xs = [] := (listMin_eq_none_iff xs).mp hxs
      subst hnil
      simp at h
      subst h
      simp
    | some m' =>
      rw [hxs] at h
      simp at h
      subst h
      rcases ih m' hxs with ⟨hmem, hle⟩
      constructor
      · rcases le_total x m' with hx | hx
        · simp [min_eq_left hx]
        · exact List.mem_cons_of_mem _ (by simpa [min_eq_right hx] using hmem)
      · intro z hz
        rcases List.mem_cons.mp hz with rfl | hzxs
        · exact min_le_left _ _
        · exact le_trans (min_le_right _ _) (hle z hzxs)

theorem listMin_le_of_mem (l : List Micros) (x : Micros) (hx : x ∈ l) :
    ∃ m, listMin l = some m ∧ m ≤ x := by
  cases hl : listMin l with
  | none =>
    rw [listMin_eq_none_iff] at hl
    subst hl
    simp at hx
  | some m => exact ⟨m, rfl, (listMin_mem_le l m hl).2 x hx⟩

/-! ### Claim C5: `try_again_later` semantics and dead-context monotonicity -/

theorem try_again_later_failed_step (c : ClusterRetryContext)
    (now delay : Micros) (h : c.failed = true) :
    c.try_again_later now delay = c := by
  simp [ClusterRetryContext.try_again_later, h]

/-- C5: if a `ClusterRetryContext` is failed (`fails ≥ max_cluster_fails`),
`try_again_later` leaves it entirely unchanged, and no sequence of
`try_again_later` calls ever makes it non-failed again; if it is not
failed, `try_again_later` increments `fails` by one and sets
`retry_at := now + delay`. -/
theorem try_again_later_spec (c : ClusterRetryContext) (now delay : Micros) :
    (c.failed = true → c.try_again_later now delay = c) ∧
    (c.failed = false →
      (c.try_again_later now delay).fails = c.fails + 1 ∧
      (c.try_again_later now delay).retry_at = now + delay ∧
      (c.try_again_later now delay).max_cluster_fails = c.max_cluster_fails) ∧
    (c.failed = true → ∀ ops : List (Micros × Micros),
      (ops.foldl (fun a p => a.try_again_later p.1 p.2) c).failed = true) := by
  refine ⟨fun h => try_again_later_failed_step c now delay h, fun h => ?_, fun h ops => ?_⟩
  · simp [ClusterRetryContext.try_again_later, h]
  · induction ops generalizing c with
    | nil => simpa using h
    | cons p ps ih =>
      simp only [List.foldl_cons]
      exact ih _ (by rw [try_again_later_failed_step c p.1 p.2 h]; exact h)

/-- Witness for C5 at concrete inputs: a dead context (2 fails of max 2)
is unchanged, and a fresh context gets `fails = 1`, `retry_at = now + delay`. -/
theorem try_again_later_spec_witness :
    ((⟨2, 7, 2⟩ : ClusterRetryContext).try_again_later 100 50 = ⟨2, 7, 2⟩) ∧
    ((ClusterRetryContext.init 2).try_again_later 100 50).fails = 1 ∧
    ((ClusterRetryContext.init 2).try_again_later 100 50).retry_at = 150 := by
  have h1 := (try_again_later_spec ⟨2, 7, 2⟩ 100 50).1 (by decide)
  have h2 := (try_again_later_spec (ClusterRetryContext.init 2) 100 50).2.1 (by decide)
  exact ⟨h1, h2.1, h2.2.1⟩

/-! ### Claim C4: `wait_for_any_cluster` semantics -/

/-- C4 counterexample: the claim says the function sleeps
`max(0, earliest non-failed retry_at - now)`, but the code sleeps
`max(timedelta(0), ...).seconds`, a truncation to whole seconds.  With
`now = 0` and one non-failed context with `retry_at` 1.5 seconds from
now, the code sleeps 1 second, not 1.5 seconds. -/
theorem wait_for_any_cluster_truncates_sleep :
    wait_for_any_cluster 0 [⟨0, 1500000, 20⟩] = .ok 1 ∧
    (1 : Int) * usPerSecond ≠ max 0 ((1500000 : Int) - 0) := by
  constructor
  · rfl
  · decide

/-- C4 (amended): `wait_for_any_cluster` raises `AllClustersFailedException`
iff every context in the collection is failed; otherwise it sleeps the
whole-second truncation (the `timedelta.seconds` component) of
`max(0, earliest non-failed retry_at - now)` and returns normally. -/
theorem wait_for_any_cluster_spec (now : Micros) (contexts : List ClusterRetryContext) :
    (wait_for_any_cluster now contexts = .error () ↔
      ∀ c ∈ contexts, c.failed = true) ∧
    (∀ s, wait_for_any_cluster now contexts = .ok s →
      ∃ c ∈ contexts, c.failed = false ∧
        (∀ c' ∈ contexts, c'.failed = false → c.retry_at ≤ c'.retry_at) ∧
        s = tdSeconds (max 0 (c.retry_at - now))) := by
  constructor
  · constructor
    · intro h
      intro c hc
      by_contra hcf
      have hmem : c ∈ contexts.filter (fun c => !c.failed) := by
        rw [List.mem_filter]
        exact ⟨hc, by simp [Bool.eq_false_iff.mpr hcf]⟩
      have hmem2 : c.retry_at ∈ (contexts.filter (fun c => !c.failed)).map (·.retry_at) :=
        List.mem_map_of_mem _ hmem
      rcases listMin_le_of_mem _ _ hmem2 with ⟨m, hm, _⟩
      rw [wait_for_any_cluster, hm] at h
      exact Except.noConfusion h
    · intro h
      rw [wait_for_any_cluster]
      have hempty : contexts.filter (fun c => !c.failed) = [] := by
        rw [List.filter_eq_nil_iff]
        intro c hc
        simp [h c hc]
      rw [hempty]
      rfl
  · intro s hs
    rw [wait_for_any_cluster] at hs
    cases hm : listMin ((contexts.filter (fun c => !c.failed)).map (·.retry_at)) with
    | none => rw [hm] at hs; exact Except.noConfusion hs
    | some earliest =>
      rw [hm] at hs
      simp only [Except.ok.injEq] at hs
      rcases listMin_mem_le _ _ hm with ⟨hmem, hle⟩
      rcases List.mem_map.mp hmem with ⟨c, hcf, hcr⟩
      rcases List.mem_filter.mp hcf with ⟨hc, hnf⟩
      refine ⟨c, hc, by simpa using hnf, ?_, ?_⟩
      · intro c' hc' hc'f
        have : c'.retry_at ∈ (contexts.filter (fun c => !c.failed)).map (·.retry_at) :=
          List.mem_map_of_mem _ (List.mem_filter.mpr ⟨hc', by simp [hc'f]⟩)
        rw [hcr]
        exact hle _ this
      · rw [hcr, ← hs]

/-- Witness for C4 (amended): with one fresh context the function
returns `ok` and sleeps 0 seconds; with one dead context it raises. -/
theorem wait_for_any_cluster_spec_witness :
    (wait_for_any_cluster 0 [⟨1, 0, 1⟩] = .error ()) ∧
    (∃ c ∈ [ClusterRetryContext.init 1], c.failed = false ∧
      (∀ c' ∈ [ClusterRetryContext.init 1], c'.failed = false →
        c.retry_at ≤ c'.retry_at) ∧
      (0 : Int) = tdSeconds (max 0 (c.retry_at - 2000000))) := by
  constructor
  · exact (wait_for_any_cluster_spec 0 [⟨1, 0, 1⟩]).1.mpr
      (by intro c hc; simp at hc; subst hc; rfl)
  · exact (wait_for_any_cluster_spec 2000000 [ClusterRetryContext.init 1]).2 0 rfl

/-! ### Claim C10: fresh contexts are neither failed nor waiting -/

/-- C10: a freshly constructed `ClusterRetryContext` with positive
`max_cluster_fails` has `fails = 0` and `retry_at` at the epoch, so it is
neither failed nor in retry-wait; any context collection containing a
fresh context makes `wait_for_any_cluster` sleep zero seconds and return
normally (for any `now` at or after the epoch). -/
theorem fresh_context_no_delay (m : Nat) (now : Micros)
    (contexts : List ClusterRetryContext)
    (hm : 0 < m) (hnow : 0 ≤ now) (hmem : ClusterRetryContext.init m ∈ contexts) :
    (ClusterRetryContext.init m).fails = 0 ∧
    (ClusterRetryContext.init m).retry_at = 0 ∧
    (ClusterRetryContext.init m).failed = false ∧
    (ClusterRetryContext.init m).in_retry_wait now = false ∧
    wait_for_any_cluster now contexts = .ok 0 := by
  have hnotfailed : (ClusterRetryContext.init m).failed = false := by
    simp only [ClusterRetryContext.init, ClusterRetryContext.failed,
      decide_eq_false_iff_not]
    omega
  refine ⟨rfl, rfl, hnotfailed, ?_, ?_⟩
  · simp only [ClusterRetryContext.init, ClusterRetryContext.in_retry_wait,
      decide_eq_false_iff_not]
    exact not_lt.mpr hnow
  · have hmemf : ClusterRetryContext.init m ∈ contexts.filter (fun c => !c.failed) :=
      List.mem_filter.mpr ⟨hmem, by simp [hnotfailed]⟩
    have hmem0 : (0 : Micros) ∈ (contexts.filter (fun c => !c.failed)).map (·.retry_at) := by
      have := List.mem_map_of_mem (·.retry_at) hmemf
      simpa [ClusterRetryContext.init] using this
    rcases listMin_le_of_mem _ _ hmem0 with ⟨e, he, hle⟩
    rw [wait_for_any_cluster, he]
    show Except.ok (tdSeconds (max 0 (e - now))) = Except.ok 0
    have hmax : max 0 (e - now) = 0 :=
      max_eq_left (sub_nonpos.mpr (hle.trans hnow))
    rw [hmax]
    simp [tdSeconds]

/-- Witness for C10 at concrete inputs. -/
theorem fresh_context_no_delay_witness :
    (ClusterRetryContext.init 20).failed = false ∧
    (ClusterRetryContext.init 20).in_retry_wait 5000000 = false ∧
    wait_for_any_cluster 5000000
      [⟨20, 9000000, 20⟩, ClusterRetryContext.init 20] = .ok 0 := by
  have h := fresh_context_no_delay 20 5000000
    [⟨20, 9000000, 20⟩, ClusterRetryContext.init 20]
    (by decide) (by decide) (by simp [ClusterRetryContext.init])
  exact ⟨h.2.2.1, h.2.2.2.1, h.2.2.2.2⟩

/-! Embedding of `get_platforms` and the `container.yaml` data it consumes.
YAML scalar values relevant to the platform filters are strings or null;
`only`/`not` values are a scalar or a list of scalars. -/

/-- A YAML scalar in a platform filter: a string or null. -/
inductive YItem where
  | str : String → YItem
  | null : YItem
deriving DecidableEq

/-- A YAML value for `platforms.only` / `platforms.not`: scalar or list. -/
inductive YVal where
  | item : YItem → YVal
  | list : List YItem → YVal
deriving DecidableEq

/-- Embedding of `make_list`: wrap a non-list value in a list. -/
def make_list (v : YVal) : List YItem :=
  match v with
  | .list xs => xs
  | .item x => [x]

/-- The state of the `platforms` key inside a parsed `container.yaml`:
absent, explicitly null, or a mapping with optional `only` / `not` keys
(`only = none` means the `only` key is absent, etc.). -/
structure PlatformsMap where
  only : Option YVal
  excl : Option YVal
deriving DecidableEq

/-- The `platforms` key of the parsed document. -/
inductive PlatformsKey where
  | absent
  | null
  | map (m : PlatformsMap)
deriving DecidableEq

/-- The `container.yaml` file next to the build file: absent, or present
with `yaml.load` returning `None` (empty document) or a document with a
`platforms` key state. -/
inductive ContainerYaml where
  | absent
  | present (data : Option PlatformsKey)
deriving DecidableEq

/-- Embedding of `OrchestrateBuildPlugin.get_platforms`.  The
user-supplied platform set `self.platforms` is a set of strings; the
returned set lives in `YItem` because `container.yaml` entries may be
null scalars. -/
def get_platforms (selfPlatforms : Finset String) (file : ContainerYaml) :
    Finset YItem :=
  let S : Finset YItem := selfPlatforms.image YItem.str
  match file with
  | .absent => S \ ∅
  | .present none => S
  | .present (some .absent) => S
  | .present (some .null) => S
  | .present (some (.map p)) =>
    let excluded : Finset YItem := (make_list (p.excl.getD (.list []))).toFinset
    let onlyS : Finset YItem := (make_list (p.only.getD (.list []))).toFinset
    let S' := if onlyS.Nonempty then S ∩ onlyS else S
    S' \ excluded

/-! ### Claim C6: `get_platforms` filter resolution -/

/-- C6: if `container.yaml` is absent, or its `platforms` key is missing
or null, the user set is returned unchanged; otherwise a (non-empty)
`platforms.only` intersects the user set and `platforms.not` is always
subtracted; on the spec's example the result is `{x86_64}`. -/
theorem get_platforms_spec (S : Finset String) (p : PlatformsMap) :
    (get_platforms S .absent = S.image YItem.str) ∧
    (get_platforms S (.present none) = S.image YItem.str) ∧
    (get_platforms S (.present (some .absent)) = S.image YItem.str) ∧
    (get_platforms S (.present (some .null)) = S.image YItem.str) ∧
    ((make_list (p.only.getD (.list []))).toFinset.Nonempty →
      get_platforms S (.present (some (.map p))) =
        (S.image YItem.str ∩ (make_list (p.only.getD (.list []))).toFinset) \
          (make_list (p.excl.getD (.list []))).toFinset) ∧
    (get_platforms {"x86_64", "ppc64le", "s390x"}
      (.present (some (.map ⟨some (.list [.str "x86_64", .str "ppc64le"]),
                        some (.list [.str "ppc64le"])⟩))) =
      {YItem.str "x86_64"}) := by
  refine ⟨by simp [get_platforms], rfl, rfl, rfl, ?_, by decide⟩
  intro h
  simp only [get_platforms, if_pos h]

/-- Witness for C6's conditional conjunct at a concrete input: a
one-element `only` list is non-empty, and the intersection result is
as stated. -/
theorem get_platforms_spec_witness :
    (make_list ((some (YVal.list [.str "x86_64"])).getD (.list []))).toFinset.Nonempty ∧
    get_platforms {"x86_64", "aarch64"}
      (.present (some (.map ⟨some (.list [.str "x86_64"]), none⟩))) =
      (({"x86_64", "aarch64"} : Finset String).image YItem.str ∩
        (make_list ((some (YVal.list [.str "x86_64"])).getD (.list []))).toFinset) \
        (make_list ((none : Option YVal).getD (.list []))).toFinset := by
  have h : (make_list ((some (YVal.list [.str "x86_64"])).getD (.list []))).toFinset.Nonempty := by
    decide
  exact ⟨h, (get_platforms_spec {"x86_64", "aarch64"}
    ⟨some (.list [.str "x86_64"]), none⟩).2.2.2.2.1 h⟩

/-! ### Claim C9: empty or missing `only` imposes no restriction -/

/-- C9: when the `platforms` mapping is present but its `only` key is
missing or an empty list, the intersection step is skipped entirely and
only the `not` exclusions are subtracted (the result is not forced
empty). -/
theorem get_platforms_empty_only (S : Finset String) (p : PlatformsMap)
    (h : p.only = none ∨ p.only = some (.list [])) :
    get_platforms S (.present (some (.map p))) =
      S.image YItem.str \ (make_list (p.excl.getD (.list []))).toFinset := by
  have honly : (make_list (p.only.getD (.list []))).toFinset = ∅ := by
    rcases h with h | h <;> simp [h, make_list]
  simp only [get_platforms, honly]
  rw [if_neg (by simp)]

/-- Witness for C9 at a concrete input: `only` missing, `not: [ppc64le]`
leaves `{x86_64}` from `{x86_64, ppc64le}`. -/
theorem get_platforms_empty_only_witness :
    ((none : Option YVal) = none ∨ (none : Option YVal) = some (.list [])) ∧
    get_platforms {"x86_64", "ppc64le"}
      (.present (some (.map ⟨none, some (.list [.str "ppc64le"])⟩))) =
      ({"x86_64", "ppc64le"} : Finset String).image YItem.str \
        (make_list ((some (YVal.list [.str "ppc64le"])).getD (.list []))).toFinset :=
  ⟨Or.inl rfl, get_platforms_empty_only {"x86_64", "ppc64le"}
    ⟨none, some (.list [.str "ppc64le"])⟩ (Or.inl rfl)⟩

/-! Embedding of worker-build keyword arguments. -/

/-- Opaque values carried in keyword-argument dictionaries. -/
inductive Val where
  | str : String → Val
  | int : Int → Val
  | bool : Bool → Val
deriving DecidableEq

/-- A Python dict of keyword arguments, as a partial map. -/
def Kwargs : Type := String → Option Val

/-- Dictionary item assignment `d[k] = v`. -/
def kwSet (d : Kwargs) (k : String) (v : Val) : Kwargs :=
  fun x => if x = k then some v else d x

/-- Dictionary `d.pop(k, None)`'s effect on the dict. -/
def kwPop (d : Kwargs) (k : String) : Kwargs :=
  fun x => if x = k then none else d x

/-- Dictionary `d.update(o)`: keys of `o` win. -/
def dictUpdate (d o : Kwargs) : Kwargs :=
  fun k => match o k with
  | some v => some v
  | none => d k

/-- Embedding of `get_worker_build_kwargs(release, platform,
koji_upload_dir, task_id)`: deep-copy of the base `build_kwargs` (the
copy is implicit in the pure model), remove `architecture`, set
`release`, `platform`, `koji_upload_dir`, `is_auto` (the `is_rebuild`
result), and `filesystem_koji_task_id` when `task_id` is truthy. -/
def get_worker_build_kwargs (build_kwargs : Kwargs)
    (release platform koji_upload_dir is_auto : Val) (task_id : Option Val) :
    Kwargs :=
  let b := kwPop build_kwargs "architecture"
  let b := kwSet b "release" release
  let b := kwSet b "platform" platform
  let b := kwSet b "koji_upload_dir" koji_upload_dir
  let b := kwSet b "is_auto" is_auto
  match task_id with
  | some t => kwSet b "filesystem_koji_task_id" t
  | none => b

/-- The kwargs `do_worker_build` passes to `create_worker_build`:
`get_worker_build_kwargs(...)` followed by `kwargs.update(override_kwargs)`. -/
def worker_build_kwargs (build_kwargs override_kwargs : Kwargs)
    (release platform koji_upload_dir is_auto : Val) (task_id : Option Val) :
    Kwargs :=
  dictUpdate
    (get_worker_build_kwargs build_kwargs release platform koji_upload_dir
      is_auto task_id)
    override_kwargs

/-! ### Claim C7: per-worker kwargs composition -/

/-- C7: in the kwargs passed to `create_worker_build`, every overridden
key takes the override value; absent an override, `architecture` is
removed, `release`/`platform`/`koji_upload_dir`/`is_auto` carry the
computed values, `filesystem_koji_task_id` is the upstream task id when
present (and the base entry otherwise), and every other key keeps its
base `build_kwargs` value (the base mapping itself is untouched, the
model being pure). -/
theorem worker_build_kwargs_spec (bk ov : Kwargs)
    (release platform koji is_auto : Val) (tid : Option Val) :
    (∀ k v, ov k = some v →
      worker_build_kwargs bk ov release platform koji is_auto tid k = some v) ∧
    (ov "architecture" = none →
      worker_build_kwargs bk ov release platform koji is_auto tid "architecture" = none) ∧
    (ov "release" = none →
      worker_build_kwargs bk ov release platform koji is_auto tid "release" = some release) ∧
    (ov "platform" = none →
      worker_build_kwargs bk ov release platform koji is_auto tid "platform" = some platform) ∧
    (ov "koji_upload_dir" = none →
      worker_build_kwargs bk ov release platform koji is_auto tid "koji_upload_dir" = some koji) ∧
    (ov "is_auto" = none →
      worker_build_kwargs bk ov release platform koji is_auto tid "is_auto" = some is_auto) ∧
    (∀ t, tid = some t → ov "filesystem_koji_task_id" = none →
      worker_build_kwargs bk ov release platform koji is_auto tid
        "filesystem_koji_task_id" = some t) ∧
    (tid = none → ov "filesystem_koji_task_id" = none →
      worker_build_kwargs bk ov release platform koji is_auto tid
        "filesystem_koji_task_id" = bk "filesystem_koji_task_id") ∧
    (∀ k, k ∉ ["architecture", "release", "platform", "koji_upload_dir",
        "is_auto", "filesystem_koji_task_id"] → ov k = none →
      worker_build_kwargs bk ov release platform koji is_auto tid k = bk k) := by
  refine ⟨?_, ?_, ?_, ?_, ?_, ?_, ?_, ?_, ?_⟩
  · intro k v hov
    simp [worker_build_kwargs, dictUpdate, hov]
  · intro hov
    cases tid <;>
      simp [worker_build_kwargs, dictUpdate, get_worker_build_kwargs, kwSet, kwPop, hov]
  · intro hov
    cases tid <;>
      simp [worker_build_kwargs, dictUpdate, get_worker_build_kwargs, kwSet, kwPop, hov]
  · intro hov
    cases tid <;>
      simp [worker_build_kwargs, dictUpdate, get_worker_build_kwargs, kwSet, kwPop, hov]
  · intro hov
    cases tid <;>
      simp [worker_build_kwargs, dictUpdate, get_worker_build_kwargs, kwSet, kwPop, hov]
  · intro hov
    cases tid <;>
      simp [worker_build_kwargs, dictUpdate, get_worker_build_kwargs, kwSet, kwPop, hov]
  · intro t htid hov
    subst htid
    simp [worker_build_kwargs, dictUpdate, get_worker_build_kwargs, kwSet, kwPop, hov]
  · intro htid hov
    subst htid
    simp [worker_build_kwargs, dictUpdate, get_worker_build_kwargs, kwSet, kwPop, hov]
  · intro k hk hov
    simp only [List.mem_cons, List.mem_singleton, not_or] at hk
    cases tid <;>
      simp [worker_build_kwargs, dictUpdate, get_worker_build_kwargs, kwSet, kwPop,
        hov, hk.1, hk.2.1, hk.2.2.1, hk.2.2.2.1, hk.2.2.2.2.1, hk.2.2.2.2.2.1]

/-- Witness for C7 at concrete inputs: base has `architecture` and
`git_branch`; override sets `release`.  The final kwargs drop
`architecture`, keep `git_branch`, and the override wins for `release`. -/
theorem worker_build_kwargs_spec_witness :
    (let bk : Kwargs := fun k =>
      if k = "architecture" then some (Val.str "x86_64")
      else if k = "git_branch" then some (Val.str "main") else none
     let ov : Kwargs := fun k =>
      if k = "release" then some (Val.str "2.0") else none
     worker_build_kwargs bk ov (Val.str "1.0") (Val.str "ppc64le")
        (Val.str "koji-upload/1.x") (Val.bool false) (some (Val.int 42))
        "release" = some (Val.str "2.0") ∧
     worker_build_kwargs bk ov (Val.str "1.0") (Val.str "ppc64le")
        (Val.str "koji-upload/1.x") (Val.bool false) (some (Val.int 42))
        "architecture" = none ∧
     worker_build_kwargs bk ov (Val.str "1.0") (Val.str "ppc64le")
        (Val.str "koji-upload/1.x") (Val.bool false) (some (Val.int 42))
        "filesystem_koji_task_id" = some (Val.int 42) ∧
     worker_build_kwargs bk ov (Val.str "1.0") (Val.str "ppc64le")
        (Val.str "koji-upload/1.x") (Val.bool false) (some (Val.int 42))
        "git_branch" = some (Val.str "main")) := by
  have h := worker_build_kwargs_spec
    (fun k => if k = "architecture" then some (Val.str "x86_64")
      else if k = "git_branch" then some (Val.str "main") else none)
    (fun k => if k = "release" then some (Val.str "2.0") else none)
    (Val.str "1.0") (Val.str "ppc64le") (Val.str "koji-upload/1.x")
    (Val.bool false) (some (Val.int 42))
  refine ⟨h.1 "release" (Val.str "2.0") (by decide), h.2.1 (by decide),
    h.2.2.2.2.2.2.1 (Val.int 42) rfl (by decide), ?_⟩
  rw [h.2.2.2.2.2.2.2.2 "git_branch" (by decide) (by decide)]
  decide

/-! Embedding of `get_koji_upload_dir` and the path-name pattern. -/

/-- Python `string.ascii_letters`. -/
def ascii_letters : List Char :=
  "abcdefghijklmnopqrstuvwxyzABCDEFGHIJKLMNOPQRSTUVWXYZ".toList

/-- Embedding of the static method `get_koji_upload_dir`: the timestamp
argument stands for `'%r' % time.time()` (the decimal `repr` of the
current wall-clock float) and `random_chars` for the eight
`random.choice(ascii_letters)` draws; the result is
`os.path.join('koji-upload', '%r.%s' % (t, random_chars))`. -/
def get_koji_upload_dir (timeRepr : String) (random_chars : List Char) : String :=
  "koji-upload/" ++ timeRepr ++ "." ++ String.mk random_chars

/-- ASCII letter class `[A-Za-z]`. -/
def isAsciiAlphaCh (c : Char) : Bool :=
  ('a' ≤ c && c ≤ 'z') || ('A' ≤ c && c ≤ 'Z')

/-- Tail of `\d+` with an optional `(\.\d+)?` continuation. -/
def numTokenIntTail : List Char → Bool
  | [] => true
  | c :: rest =>
    if c.isDigit then numTokenIntTail rest
    else c = '.' && (match rest with
      | [] => false
      | d :: rest' => d.isDigit && (rest'.all (·.isDigit)))

/-- Matcher for `\d+(\.\d+)?` over a character list. -/
def numToken : List Char → Bool
  | [] => false
  | c :: rest => c.isDigit && numTokenIntTail rest

/-- Matcher for the anchored pattern
`^koji-upload/\d+(\.\d+)?\.[A-Za-z]\x7b8\x7d$`: the last eight
characters are ASCII letters, preceded by a literal dot, preceded by a
decimal number, after the fixed directory `koji-upload/`. -/
def matchesKojiUploadPattern (s : String) : Bool :=
  let l := s.toList
  decide (l.take 12 = "koji-upload/".toList) &&
  (let r := l.drop 12
   decide (9 ≤ r.length) &&
   numToken (r.take (r.length - 9)) &&
   decide ((r.drop (r.length - 9)).take 1 = ['.']) &&
   (r.drop (r.length - 8)).all isAsciiAlphaCh &&
   decide ((r.drop (r.length - 8)).length = 8))

/-! ### Claim C8: `koji_upload_dir` shape and per-run stability -/

theorem ascii_letters_alpha : ∀ c ∈ ascii_letters, isAsciiAlphaCh c = true := by
  decide

/-- C8: a generated `koji_upload_dir` matches
`^koji-upload/\d+(\.\d+)?\.[A-Za-z]\x7b8\x7d$` whenever the timestamp
`repr` is a decimal number and the eight random characters come from
`ascii_letters`; and the single generated value reaches the kwargs of
every platform's worker build identically (`platform` is the only
per-worker parameter, and the override dict is shared), being exactly
the generated string whenever no override replaces it. -/
theorem koji_upload_dir_spec (ts : String) (letters : List Char)
    (hts : numToken ts.toList = true)
    (hlen : letters.length = 8)
    (hletters : ∀ c ∈ letters, c ∈ ascii_letters) :
    matchesKojiUploadPattern (get_koji_upload_dir ts letters) = true ∧
    (∀ (bk ov : Kwargs) (release is_auto : Val) (tid : Option Val) (p₁ p₂ : Val),
      worker_build_kwargs bk ov release p₁
        (Val.str (get_koji_upload_dir ts letters)) is_auto tid "koji_upload_dir" =
      worker_build_kwargs bk ov release p₂
        (Val.str (get_koji_upload_dir ts letters)) is_auto tid "koji_upload_dir") ∧
    (∀ (bk ov : Kwargs) (release is_auto : Val) (tid : Option Val) (p : Val),
      ov "koji_upload_dir" = none →
      worker_build_kwargs bk ov release p
        (Val.str (get_koji_upload_dir ts letters)) is_auto tid "koji_upload_dir" =
        some (Val.str (get_koji_upload_dir ts letters))) := by
  refine ⟨?_, ?_, ?_⟩
  · have hl : (get_koji_upload_dir ts letters).toList =
        "koji-upload/".toList ++ (ts.toList ++ '.' :: letters) := by
      simp [get_koji_upload_dir, String.toList]
    rw [matchesKojiUploadPattern]
    simp only [hl]
    have htake : ("koji-upload/".toList ++ (ts.toList ++ '.' :: letters)).take 12 =
        "koji-upload/".toList := List.take_left' (by decide)
    have hdrop : ("koji-upload/".toList ++ (ts.toList ++ '.' :: letters)).drop 12 =
        ts.toList ++ '.' :: letters := List.drop_left' (by decide)
    rw [htake, hdrop]
    have hrlen : (ts.toList ++ '.' :: letters).length = ts.toList.length + 9 := by
      simp [hlen]
    have h9 : (ts.toList ++ '.' :: letters).length - 9 = ts.toList.length := by
      omega
    have h8 : (ts.toList ++ '.' :: letters).length - 8 = (ts.toList ++ ['.']).length := by
      simp at hrlen ⊢
      omega
    have htake2 : (ts.toList ++ '.' :: letters).take (ts.toList.length) = ts.toList :=
      List.take_left _ _
    have hdrop2 : (ts.toList ++ '.' :: letters).drop (ts.toList.length) = '.' :: letters :=
      List.drop_left _ _
    have hassoc : ts.toList ++ '.' :: letters = (ts.toList ++ ['.']) ++ letters := by
      simp
    have hdrop3 : (ts.toList ++ '.' :: letters).drop ((ts.toList ++ ['.']).length) =
        letters := by
      rw [hassoc]
      exact List.drop_left _ _
    rw [h9, h8, htake2, hdrop2, hdrop3, hts]
    have hall : letters.all isAsciiAlphaCh = true :=
      List.all_eq_true.mpr (fun c hc => ascii_letters_alpha c (hletters c hc))
    simp [hrlen, hlen, hall, Nat.le_add_left]
  · intro bk ov release is_auto tid p₁ p₂
    by_cases hov : ∃ v, ov "koji_upload_dir" = some v
    · rcases hov with ⟨v, hv⟩
      simp [worker_build_kwargs, dictUpdate, hv]
    · have hv : ov "koji_upload_dir" = none := by
        cases h : ov "koji_upload_dir" with
        | none => rfl
        | some v => exact absurd ⟨v, h⟩ hov
      cases tid <;>
        simp [worker_build_kwargs, dictUpdate, get_worker_build_kwargs, kwSet, kwPop, hv]
  · intro bk ov release is_auto tid p hv
    cases tid <;>
      simp [worker_build_kwargs, dictUpdate, get_worker_build_kwargs, kwSet, kwPop, hv]

/-- Witness for C8 at a concrete generated value: timestamp `repr`
`1502345678.25` and letters `abcdefgh`. -/
theorem koji_upload_dir_spec_witness :
    matchesKojiUploadPattern
      (get_koji_upload_dir "1502345678.25" "abcdefgh".toList) = true ∧
    (∀ p : Val, (fun (_ : String) => (none : Option Val)) "koji_upload_dir" = none →
      worker_build_kwargs (fun _ => none) (fun _ => none) (Val.str "1.0") p
        (Val.str (get_koji_upload_dir "1502345678.25" "abcdefgh".toList))
        (Val.bool false) none "koji_upload_dir" =
        some (Val.str (get_koji_upload_dir "1502345678.25" "abcdefgh".toList))) := by
  have h := koji_upload_dir_spec "1502345678.25" "abcdefgh".toList
    (by decide) (by decide) (by decide)
  exact ⟨h.1, fun p hp =>
    h.2.2 (fun _ => none) (fun _ => none) (Val.str "1.0") (Val.bool false) none p hp⟩

/-! Embedding of the cluster-selection and worker-dispatch machinery.
Remote-call outcomes are supplied by the `OrchEnv` oracle, indexed by a
running per-kind call counter; `while` loops take explicit fuel. -/

/-- A worker cluster from the reactor configuration. -/
structure Cluster where
  name : String
  priority : Nat
  max_concurrent_builds : Nat
deriving DecidableEq

/-- Embedding of the `ClusterInfo` namedtuple (the `osbs` client handle
carries no data in the model). -/
structure ClusterInfo where
  cluster : Cluster
  platform : String
  load : Rat
deriving DecidableEq

/-- Exception classes distinguished by the plugin's handlers:
`OsbsException` versus any other `Exception`. -/
inductive PyExc where
  | osbs
  | other
deriving DecidableEq

/-- A remote build object returned by `create_worker_build`. -/
structure Build where
  name : String
deriving DecidableEq

/-- Value of `WorkerBuildInfo.monitor_exception`: a captured exception
object or (for the sentinel in `select_and_start_cluster`) a `repr`
string. -/
inductive MonExc where
  | exc (e : PyExc)
  | reprStr (s : String)
deriving DecidableEq

/-- Embedding of `WorkerBuildInfo` (the log adapter and client handle
carry no data in the model); the sentinel entry has `cluster = none`. -/
structure WorkerBuildInfo where
  build : Option Build
  cluster : Option Cluster
  platform : String
  monitor_exception : Option MonExc
deriving DecidableEq

/-- Oracle resolving the remote calls.  `probeResult i` is the result of
the `i`-th `get_current_builds` call (active build count, or an
`OsbsException`); `createResult i kwargs` the result of the `i`-th
`create_worker_build` call; `monitorResult i` an exception raised while
watching logs / waiting on build `i` (if any); `buildFinished i` the
`build.is_finished()` answer when cancelling build `i`; `cancelResult i`
an exception raised by `osbs.cancel_build` for build `i` (if any). -/
structure OrchEnv where
  probeResult : Nat → Except Unit Nat
  createResult : Nat → Kwargs → Except PyExc Build
  monitorResult : Nat → Option PyExc
  buildFinished : Nat → Bool
  cancelResult : Nat → Option PyExc

/-- Plugin-instance fields consumed by the dispatch path. -/
structure OrchConfig where
  build_kwargs : Kwargs
  override_kwargs : Kwargs
  release : Val
  koji_upload_dir : Val
  is_auto : Val
  fs_task_id : Option Val
  find_cluster_retry_delay : Micros
  failure_retry_delay : Micros
  max_cluster_fails : Nat

/-- Clock and probe-call counter threaded through `get_clusters`. -/
structure ProbeState where
  now : Micros
  probeCalls : Nat
deriving DecidableEq

/-- The retry-context dictionary, as a total map on cluster names. -/
def RetryContexts : Type := String → ClusterRetryContext

/-- Dictionary update `retry_contexts[name] = ctx`. -/
def updateCtx (r : RetryContexts) (n : String) (c : ClusterRetryContext) :
    RetryContexts :=
  fun x => if x = n then c else r x

/-- Embedding of `get_cluster_info`: probe the cluster's active builds
and compute `load = current_builds / max_concurrent_builds` (exact
rational division, written `mkRat` — equal to `/` for the positive
`max_concurrent_builds` a configuration provides). -/
def get_cluster_info (env : OrchEnv) (st : ProbeState) (cluster : Cluster)
    (platform : String) : ProbeState × Except Unit ClusterInfo :=
  let st' := { st with probeCalls := st.probeCalls + 1 }
  match env.probeResult st.probeCalls with
  | .error () => (st', .error ())
  | .ok n =>
    (st', .ok ⟨cluster, platform, mkRat (n : Int) cluster.max_concurrent_builds⟩)

/-- One pass of the `for cluster in sorted(candidates, key=priority)`
loop inside `get_clusters`: skip contexts in retry-wait or failed,
otherwise probe; an `OsbsException` counts a failure via
`try_again_later(find_cluster_retry_delay)`. -/
def probePass (env : OrchEnv) (platform : String) (find_delay : Micros) :
    List Cluster → ProbeState → RetryContexts → List ClusterInfo →
    ProbeState × RetryContexts × List ClusterInfo
  | [], st, retry, probed => (st, retry, probed)
  | c :: cs, st, retry, probed =>
    let ctx := retry c.name
    if ctx.in_retry_wait st.now then probePass env platform find_delay cs st retry probed
    else if ctx.failed then probePass env platform find_delay cs st retry probed
    else
      match get_cluster_info env st c platform with
      | (st', .ok info) =>
        probePass env platform find_delay cs st' retry (probed ++ [info])
      | (st', .error ()) =>
        probePass env platform find_delay cs st'
          (updateCtx retry c.name (ctx.try_again_later st.now find_delay)) probed

/-- The `while candidates and not possible_cluster_info` loop of
`get_clusters`, with fuel.  `time.sleep` advances the clock by the slept
whole seconds; other operations are instantaneous in the model. -/
def get_clusters_loop (env : OrchEnv) (platform : String) (find_delay : Micros)
    (all_clusters : List Cluster) :
    Nat → List Cluster → List ClusterInfo → ProbeState → RetryContexts →
    Option (ProbeState × RetryContexts × Except Unit (List ClusterInfo))
  | 0, _, _, _, _ => none
  | fuel + 1, candidates, probed, st, retry =>
    if candidates ≠ [] ∧ probed = [] then
      match wait_for_any_cluster st.now (all_clusters.map (fun c => retry c.name)) with
      | .error () => some (st, retry, .error ())
      | .ok s =>
        let st1 := { st with now := st.now + s * usPerSecond }
        match probePass env platform find_delay
            (sortByKey (·.priority) candidates) st1 retry probed with
        | (st2, retry2, probed2) =>
          get_clusters_loop env platform find_delay all_clusters fuel
            (candidates.filter (fun c => !(retry2 c.name).failed)) probed2 st2 retry2
    else
      some (st, retry, .ok probed)

/-- Embedding of `get_clusters`: run the probing loop starting from
`candidates = all_clusters`, then sort the probed infos by
`cluster.priority` and re-sort (stably) by `load` — the two `sorted`
calls of the source. -/
def get_clusters (env : OrchEnv) (platform : String) (find_delay : Micros)
    (fuel : Nat) (st : ProbeState) (retry : RetryContexts)
    (all_clusters : List Cluster) :
    Option (ProbeState × RetryContexts × Except Unit (List ClusterInfo)) :=
  match get_clusters_loop env platform find_delay all_clusters fuel
      all_clusters [] st retry with
  | none => none
  | some (st', retry', .error ()) => some (st', retry', .error ())
  | some (st', retry', .ok probed) =>
    some (st', retry',
      .ok (sortByKey (·.load) (sortByKey (fun ci => ci.cluster.priority) probed)))

/-- Worker-build call counter and the orchestrator's shared
`worker_builds` list. -/
structure WorkerState where
  createCalls : Nat
  worker_builds : List WorkerBuildInfo
deriving DecidableEq

/-- Embedding of `do_worker_build(cluster_info)`: compose kwargs, call
`create_worker_build`, append one `WorkerBuildInfo`, then monitor.  An
`OsbsException` from the create call re-raises before the append; any
other create exception is swallowed (`build = None`).  A monitoring
exception is captured in `monitor_exception`, followed by a best-effort
cancel whose `OsbsException` is swallowed — but any other cancel
exception propagates. -/
def do_worker_build (env : OrchEnv) (cfg : OrchConfig) (ci : ClusterInfo)
    (st : WorkerState) : WorkerState × Except PyExc Unit :=
  let kwargs := worker_build_kwargs cfg.build_kwargs cfg.override_kwargs
    cfg.release (Val.str ci.platform) cfg.koji_upload_dir cfg.is_auto cfg.fs_task_id
  let i := st.createCalls
  match env.createResult i kwargs with
  | .error .osbs => ({ st with createCalls := i + 1 }, .error .osbs)
  | .error .other =>
    ({ createCalls := i + 1,
       worker_builds := st.worker_builds ++ [⟨none, some ci.cluster, ci.platform, none⟩] },
     .ok ())
  | .ok b =>
    match env.monitorResult i with
    | none =>
      ({ createCalls := i + 1,
         worker_builds := st.worker_builds ++ [⟨some b, some ci.cluster, ci.platform, none⟩] },
       .ok ())
    | some e =>
      let bi : WorkerBuildInfo := ⟨some b, some ci.cluster, ci.platform, some (.exc e)⟩
      let st' : WorkerState :=
        { createCalls := i + 1, worker_builds := st.worker_builds ++ [bi] }
      if env.buildFinished i then (st', .ok ())
      else
        match env.cancelResult i with
        | none => (st', .ok ())
        | some .osbs => (st', .ok ())
        | some .other => (st', .error .other)

/-- The `for cluster_info in possible_cluster_info` loop of
`select_and_start_cluster`: attempt `do_worker_build` on each candidate
in order; an `OsbsException` records `try_again_later(failure_retry_delay)`
and moves on; success (or a propagating non-Osbs error) ends the loop. -/
def tryClusters (env : OrchEnv) (cfg : OrchConfig) :
    List ClusterInfo → RetryContexts → Micros → WorkerState →
    RetryContexts × WorkerState × Option (Except PyExc Unit)
  | [], retry, _, st => (retry, st, none)
  | ci :: rest, retry, now, st =>
    match do_worker_build env cfg ci st with
    | (st', .ok ()) => (retry, st', some (.ok ()))
    | (st', .error .osbs) =>
      tryClusters env cfg rest
        (updateCtx retry ci.cluster.name
          ((retry ci.cluster.name).try_again_later now cfg.failure_retry_delay))
        now st'
    | (st', .error .other) => (retry, st', some (.error .other))

/-- Errors that can escape `select_and_start_cluster`. -/
inductive SelErr where
  | unknownPlatform
  | pyerr (e : PyExc)
deriving DecidableEq

/-- The `while True` loop of `select_and_start_cluster`, with fuel:
probe-and-sort via `get_clusters`; on `AllClustersFailedException`
append the sentinel `WorkerBuildInfo` and return; otherwise try the
candidates in order and restart when all of them failed transiently. -/
def select_loop (env : OrchEnv) (cfg : OrchConfig) (platform : String)
    (clusters : List Cluster) :
    Nat → ProbeState → RetryContexts → WorkerState →
    Option (ProbeState × WorkerState × Except PyExc Unit)
  | 0, _, _, _ => none
  | fuel + 1, pst, retry, wst =>
    match get_clusters env platform cfg.find_cluster_retry_delay (fuel + 1)
        pst retry clusters with
    | none => none
    | some (pst', _, .error ()) =>
      some (pst',
        { wst with worker_builds := wst.worker_builds ++
            [⟨none, none, platform, some (.reprStr "AllClustersFailedException")⟩] },
        .ok ())
    | some (pst', retry', .ok infos) =>
      match tryClusters env cfg infos retry' pst'.now wst with
      | (_, wst', some r) => some (pst', wst', r)
      | (retry2, wst', none) =>
        select_loop env cfg platform clusters fuel pst' retry2 wst'

/-- Embedding of `select_and_start_cluster(platform)`: raise
`UnknownPlatformException` when no clusters are configured, else build
fresh retry contexts and run the dispatch loop. -/
def select_and_start_cluster (env : OrchEnv) (cfg : OrchConfig)
    (platform : String) (clusters : List Cluster) (fuel : Nat)
    (pst : ProbeState) (wst : WorkerState) :
    Option (ProbeState × WorkerState × Except SelErr Unit) :=
  if clusters = [] then some (pst, wst, .error .unknownPlatform)
  else
    match select_loop env cfg platform clusters fuel pst
        (fun _ => ClusterRetryContext.init cfg.max_cluster_fails) wst with
    | none => none
    | some (pst', wst', .ok ()) => some (pst', wst', .ok ())
    | some (pst', wst', .error e) => some (pst', wst', .error (.pyerr e))

/-! ### Claim C1: ordering of `get_clusters` output -/

/-- Ascending (priority, load) lexicographic order — the ordering the
claim asserts, with priority the primary key. -/
def priorityThenLoadLe (x y : ClusterInfo) : Prop :=
  x.cluster.priority < y.cluster.priority ∨
    (x.cluster.priority = y.cluster.priority ∧ x.load ≤ y.load)

/-- Ascending (load, priority) lexicographic order — the ordering the
code actually produces: the final `sorted` call keys on load, so load is
the primary key and priority survives only as the stable tie-break. -/
def loadThenPriorityLe (x y : ClusterInfo) : Prop :=
  x.load < y.load ∨ (x.load = y.load ∧ x.cluster.priority ≤ y.cluster.priority)

/-- Two clusters probed successfully on the first pass: `a` with
priority 1 and 5/10 active builds, `b` with priority 2 and 2/10. -/
def envTwoProbes : OrchEnv :=
  { probeResult := fun i => if i = 0 then .ok 5 else .ok 2
    createResult := fun _ _ => .error .other
    monitorResult := fun _ => none
    buildFinished := fun _ => true
    cancelResult := fun _ => none }

/-- C1 counterexample: with cluster `a` (priority 1, load 1/2) and
cluster `b` (priority 2, load 1/5), `get_clusters` returns `[b, a]` —
the lower-priority cluster first because its load is smaller.  The
adjacent pair violates the claimed (priority, load) ordering, so the
output is not sorted with priority as the primary key. -/
theorem get_clusters_not_priority_sorted :
    (get_clusters envTwoProbes "x86_64" 15000000 2 ⟨0, 0⟩
        (fun _ => ClusterRetryContext.init 20)
        [⟨"a", 1, 10⟩, ⟨"b", 2, 10⟩]).map (fun r => r.2.2) =
      some (.ok [⟨⟨"b", 2, 10⟩, "x86_64", mkRat 1 5⟩,
                 ⟨⟨"a", 1, 10⟩, "x86_64", mkRat 1 2⟩]) ∧
    ¬ priorityThenLoadLe ⟨⟨"b", 2, 10⟩, "x86_64", mkRat 1 5⟩
        ⟨⟨"a", 1, 10⟩, "x86_64", mkRat 1 2⟩ := by
  constructor
  · decide
  · intro h
    rcases h with h | ⟨h, -⟩
    · exact absurd h (by decide)
    · exact absurd h (by decide)

theorem get_clusters_loop_ok_of_some {env : OrchEnv} {platform : String}
    {delay : Micros} {fuel : Nat} {st st' : ProbeState} {retry retry' : RetryContexts}
    {clusters : List Cluster} {l : List ClusterInfo}
    (h : get_clusters env platform delay fuel st retry clusters =
      some (st', retry', .ok l)) :
    ∃ probed, l = sortByKey (·.load)
      (sortByKey (fun ci => ci.cluster.priority) probed) := by
  unfold get_clusters at h
  rcases hloop : get_clusters_loop env platform delay clusters fuel clusters [] st retry
    with - | ⟨st2, retry2, r⟩
  · rw [hloop] at h
    exact absurd h (by simp)
  · rw [hloop] at h
    cases r with
    | error e =>
      cases e
      simp at h
    | ok probed =>
      simp only [Option.some.injEq, Prod.mk.injEq, Except.ok.injEq] at h
      exact ⟨probed, h.2.2.symm⟩

/-- C1 (amended): for every terminating run of `get_clusters`, the
returned list is sorted first by ascending `load` and then, among equal
loads, by ascending `cluster.priority`; load is the primary sort key
and priority only the tie-breaker (the code's last `sorted` call keys
on load). -/
theorem get_clusters_sorted_by_load (env : OrchEnv) (platform : String)
    (delay : Micros) (fuel : Nat) (st : ProbeState)
    (retry : RetryContexts) (clusters : List Cluster) (l : List ClusterInfo)
    (h : (get_clusters env platform delay fuel st retry clusters).map
      (fun r => r.2.2) = some (.ok l)) :
    l.Pairwise loadThenPriorityLe := by
  rcases hg : get_clusters env platform delay fuel st retry clusters
    with - | ⟨st', retry', r⟩
  · rw [hg] at h
    simp at h
  · rw [hg] at h
    simp only [Option.map_some', Option.some.injEq] at h
    obtain ⟨probed, hl⟩ := get_clusters_loop_ok_of_some (show
      get_clusters env platform delay fuel st retry clusters =
        some (st', retry', .ok l) by rw [hg, h])
    subst hl
    exact pairwise_sortByKey_twice (·.load) (fun ci => ci.cluster.priority) probed

/-- Witness for C1 (amended) on the two-cluster run: the returned list
`[b, a]` is pairwise in (load, priority) order. -/
theorem get_clusters_sorted_by_load_witness :
    ([⟨⟨"b", 2, 10⟩, "x86_64", mkRat 1 5⟩, ⟨⟨"a", 1, 10⟩, "x86_64", mkRat 1 2⟩] :
      List ClusterInfo).Pairwise loadThenPriorityLe :=
  get_clusters_sorted_by_load envTwoProbes "x86_64" 15000000 2 ⟨0, 0⟩
    (fun _ => ClusterRetryContext.init 20)
    [⟨"a", 1, 10⟩, ⟨"b", 2, 10⟩] _ (by decide)

/-! ### Claim C3: exception propagation out of `do_worker_build` -/

/-- Shared concrete plugin configuration for concrete runs. -/
def cfgDefault : OrchConfig :=
  { build_kwargs := fun _ => none
    override_kwargs := fun _ => none
    release := Val.str "1"
    koji_upload_dir := Val.str "koji-upload/1.abcdefgh"
    is_auto := Val.bool false
    fs_task_id := none
    find_cluster_retry_delay := 15000000
    failure_retry_delay := 10000000
    max_cluster_fails := 20 }

/-- Environment where the create call succeeds, monitoring raises, the
build is not finished, and the best-effort cancel raises a
non-`OsbsException`. -/
def envCancelError : OrchEnv :=
  { probeResult := fun _ => .ok 0
    createResult := fun _ _ => .ok ⟨"worker-build-1"⟩
    monitorResult := fun _ => some .other
    buildFinished := fun _ => false
    cancelResult := fun _ => some .other }

/-- C3 counterexample: the claim says only an `OsbsException` raised by
`create_worker_build` propagates out of `do_worker_build`.  But the
best-effort cancel after a monitoring failure only swallows
`OsbsException` (`except OsbsException: pass`), so a non-Osbs exception
raised by `osbs.cancel_build` propagates even though the create call
succeeded. -/
theorem do_worker_build_cancel_error_propagates :
    (do_worker_build envCancelError cfgDefault
        ⟨⟨"a", 1, 10⟩, "x86_64", mkRat 0 10⟩ ⟨0, []⟩).2 = .error .other ∧
    envCancelError.createResult 0 (worker_build_kwargs cfgDefault.build_kwargs
        cfgDefault.override_kwargs cfgDefault.release (Val.str "x86_64")
        cfgDefault.koji_upload_dir cfgDefault.is_auto cfgDefault.fs_task_id) =
      .ok ⟨"worker-build-1"⟩ ∧
    (do_worker_build envCancelError cfgDefault
        ⟨⟨"a", 1, 10⟩, "x86_64", mkRat 0 10⟩ ⟨0, []⟩).1.worker_builds =
      [⟨some ⟨"worker-build-1"⟩, some ⟨"a", 1, 10⟩, "x86_64",
        some (.exc .other)⟩] := by
  exact ⟨rfl, rfl, rfl⟩

/-- C3 (amended): an `OsbsException` from the create call re-raises (and
nothing is appended before it); any other exception from the create call
is swallowed with a `build = None` info appended; and the only other way
`do_worker_build` can raise is a non-Osbs exception from the best-effort
cancel after a monitoring failure on an unfinished build. -/
theorem do_worker_build_spec (env : OrchEnv) (cfg : OrchConfig) (ci : ClusterInfo)
    (st : WorkerState) :
    (env.createResult st.createCalls (worker_build_kwargs cfg.build_kwargs
        cfg.override_kwargs cfg.release (Val.str ci.platform) cfg.koji_upload_dir
        cfg.is_auto cfg.fs_task_id) = .error .osbs →
      do_worker_build env cfg ci st =
        ({ st with createCalls := st.createCalls + 1 }, .error .osbs)) ∧
    (env.createResult st.createCalls (worker_build_kwargs cfg.build_kwargs
        cfg.override_kwargs cfg.release (Val.str ci.platform) cfg.koji_upload_dir
        cfg.is_auto cfg.fs_task_id) = .error .other →
      do_worker_build env cfg ci st =
        ({ createCalls := st.createCalls + 1,
           worker_builds := st.worker_builds ++
             [⟨none, some ci.cluster, ci.platform, none⟩] }, .ok ())) ∧
    (∀ e, (do_worker_build env cfg ci st).2 = .error e →
      (env.createResult st.createCalls (worker_build_kwargs cfg.build_kwargs
          cfg.override_kwargs cfg.release (Val.str ci.platform) cfg.koji_upload_dir
          cfg.is_auto cfg.fs_task_id) = .error .osbs ∧ e = .osbs) ∨
      (∃ b em, env.createResult st.createCalls (worker_build_kwargs cfg.build_kwargs
          cfg.override_kwargs cfg.release (Val.str ci.platform) cfg.koji_upload_dir
          cfg.is_auto cfg.fs_task_id) = .ok b ∧
        env.monitorResult st.createCalls = some em ∧
        env.buildFinished st.createCalls = false ∧
        env.cancelResult st.createCalls = some .other ∧ e = .other)) := by
  refine ⟨?_, ?_, ?_⟩
  · intro hc
    simp only [do_worker_build, hc]
  · intro hc
    simp only [do_worker_build, hc]
  · intro e he
    rcases hc : env.createResult st.createCalls (worker_build_kwargs cfg.build_kwargs
        cfg.override_kwargs cfg.release (Val.str ci.platform) cfg.koji_upload_dir
        cfg.is_auto cfg.fs_task_id) with ex | b
    · cases ex with
      | osbs =>
        simp [do_worker_build, hc] at he
        exact Or.inl ⟨rfl, he.symm⟩
      | other => simp [do_worker_build, hc] at he
    · rcases hm : env.monitorResult st.createCalls with - | em
      · simp [do_worker_build, hc, hm] at he
      · rcases hf : env.buildFinished st.createCalls with - | -
        · rcases hcan : env.cancelResult st.createCalls with - | ecan
          · simp [do_worker_build, hc, hm, hf, hcan] at he
          · cases ecan with
            | osbs => simp [do_worker_build, hc, hm, hf, hcan] at he
            | other =>
              simp [do_worker_build, hc, hm, hf, hcan] at he
              exact Or.inr ⟨b, em, rfl, rfl, rfl, rfl, he.symm⟩
        · simp [do_worker_build, hc, hm, hf] at he

/-- Environment whose create call raises a non-`OsbsException`. -/
def envCreateOther : OrchEnv :=
  { probeResult := fun _ => .ok 0
    createResult := fun _ _ => .error .other
    monitorResult := fun _ => none
    buildFinished := fun _ => true
    cancelResult := fun _ => none }

/-- Witness for C3 (amended): a non-Osbs create failure is swallowed and
a `build = None` info is appended. -/
theorem do_worker_build_spec_witness :
    do_worker_build envCreateOther cfgDefault
      ⟨⟨"a", 1, 10⟩, "x86_64", mkRat 0 10⟩ ⟨0, []⟩ =
      ({ createCalls := 1,
         worker_builds := [⟨none, some ⟨"a", 1, 10⟩, "x86_64", none⟩] }, .ok ()) :=
  (do_worker_build_spec envCreateOther cfgDefault
    ⟨⟨"a", 1, 10⟩, "x86_64", mkRat 0 10⟩ ⟨0, []⟩).2.1 rfl

/-! ### Claim C2: exactly one `WorkerBuildInfo` per platform -/

/-- On any single `do_worker_build` call, either an `OsbsException`
re-raises with the worker list untouched, or (any other outcome) exactly
one info is appended, whose `build` is non-null only with a successful
create call. -/
theorem do_worker_build_worker_builds (env : OrchEnv) (cfg : OrchConfig)
    (ci : ClusterInfo) (st : WorkerState) :
    ((do_worker_build env cfg ci st).2 = .error .osbs ∧
      (do_worker_build env cfg ci st).1.worker_builds = st.worker_builds) ∨
    ((do_worker_build env cfg ci st).2 ≠ .error .osbs ∧
      ∃ bi, (do_worker_build env cfg ci st).1.worker_builds =
          st.worker_builds ++ [bi] ∧
        ∀ b, bi.build = some b →
          ∃ k, env.createResult st.createCalls k = .ok b) := by
  rcases hc : env.createResult st.createCalls (worker_build_kwargs cfg.build_kwargs
      cfg.override_kwargs cfg.release (Val.str ci.platform) cfg.koji_upload_dir
      cfg.is_auto cfg.fs_task_id) with ex | b
  · cases ex with
    | osbs =>
      refine Or.inl ⟨?_, ?_⟩ <;> simp [do_worker_build, hc]
    | other =>
      refine Or.inr ⟨?_, ⟨none, some ci.cluster, ci.platform, none⟩, ?_, ?_⟩
      · simp [do_worker_build, hc]
      · simp [do_worker_build, hc]
      · intro b' hb'
        exact absurd hb' (by simp)
  · rcases hm : env.monitorResult st.createCalls with - | em
    · refine Or.inr ⟨?_, ⟨some b, some ci.cluster, ci.platform, none⟩, ?_, ?_⟩
      · simp [do_worker_build, hc, hm]
      · simp [do_worker_build, hc, hm]
      · intro b' hb'
        simp only [Option.some.injEq] at hb'
        exact ⟨_, hb' ▸ hc⟩
    · rcases hf : env.buildFinished st.createCalls with - | -
      · rcases hcan : env.cancelResult st.createCalls with - | ecan
        · refine Or.inr ⟨?_, ⟨some b, some ci.cluster, ci.platform, some (.exc em)⟩, ?_, ?_⟩
          · simp [do_worker_build, hc, hm, hf, hcan]
          · simp [do_worker_build, hc, hm, hf, hcan]
          · intro b' hb'
            simp only [Option.some.injEq] at hb'
            exact ⟨_, hb' ▸ hc⟩
        · refine Or.inr ⟨?_, ⟨some b, some ci.cluster, ci.platform, some (.exc em)⟩, ?_, ?_⟩
          · cases ecan <;> simp [do_worker_build, hc, hm, hf, hcan]
          · cases ecan <;> simp [do_worker_build, hc, hm, hf, hcan]
          · intro b' hb'
            simp only [Option.some.injEq] at hb'
            exact ⟨_, hb' ▸ hc⟩
      · refine Or.inr ⟨?_, ⟨some b, some ci.cluster, ci.platform, some (.exc em)⟩, ?_, ?_⟩
        · simp [do_worker_build, hc, hm, hf]
        · simp [do_worker_build, hc, hm, hf]
        · intro b' hb'
          simp only [Option.some.injEq] at hb'
          exact ⟨_, hb' ▸ hc⟩

/-- Through the candidate loop: either no attempt concluded (the list is
exhausted by transient failures) and the worker list is untouched, or
the loop ended with exactly one appended info. -/
theorem tryClusters_worker_builds (env : OrchEnv) (cfg : OrchConfig) :
    ∀ (infos : List ClusterInfo) (retry : RetryContexts) (now : Micros)
      (st : WorkerState),
      ((tryClusters env cfg infos retry now st).2.2 = none ∧
        (tryClusters env cfg infos retry now st).2.1.worker_builds =
          st.worker_builds) ∨
      (∃ r bi, (tryClusters env cfg infos retry now st).2.2 = some r ∧
        (tryClusters env cfg infos retry now st).2.1.worker_builds =
          st.worker_builds ++ [bi] ∧
        ∀ b, bi.build = some b → ∃ i k, env.createResult i k = .ok b) := by
  intro infos
  induction infos with
  | nil =>
    intro retry now st
    exact Or.inl ⟨rfl, rfl⟩
  | cons ci rest ih =>
    intro retry now st
    rcases hdo : do_worker_build env cfg ci st with ⟨st', (- | -) | ⟨⟩⟩
    · -- create raised OsbsException: rotate to the next candidate
      have hchar := do_worker_build_worker_builds env cfg ci st
      rw [hdo] at hchar
      rcases hchar with ⟨-, hunch⟩ | ⟨hbad, -⟩
      · simp only at hunch
        have hih := ih (updateCtx retry ci.cluster.name
          ((retry ci.cluster.name).try_again_later now cfg.failure_retry_delay)) now st'
        rcases hih with ⟨hr, hw⟩ | ⟨r', bi, hr, hw, hb⟩
        · refine Or.inl ⟨?_, ?_⟩
          · simpa [tryClusters, hdo] using hr
          · rw [hunch] at hw
            simpa [tryClusters, hdo] using hw
        · refine Or.inr ⟨r', bi, ?_, ?_, hb⟩
          · simpa [tryClusters, hdo] using hr
          · rw [hunch] at hw
            simpa [tryClusters, hdo] using hw
      · exact absurd rfl hbad
    · -- create (or cancel) raised a non-Osbs exception: it propagates
      have hchar := do_worker_build_worker_builds env cfg ci st
      rw [hdo] at hchar
      rcases hchar with ⟨hbad, -⟩ | ⟨-, bi, happ, hb⟩
      · exact absurd hbad (by simp)
      · simp only at happ
        refine Or.inr ⟨.error .other, bi, ?_, ?_, ?_⟩
        · simp [tryClusters, hdo]
        · simpa [tryClusters, hdo] using happ
        · intro b hbb
          obtain ⟨k, hk⟩ := hb b hbb
          exact ⟨st.createCalls, k, hk⟩
    · -- the attempt concluded normally
      have hchar := do_worker_build_worker_builds env cfg ci st
      rw [hdo] at hchar
      rcases hchar with ⟨hbad, -⟩ | ⟨-, bi, happ, hb⟩
      · exact absurd hbad (by simp)
      · simp only at happ
        refine Or.inr ⟨.ok (), bi, ?_, ?_, ?_⟩
        · simp [tryClusters, hdo]
        · simpa [tryClusters, hdo] using happ
        · intro b hbb
          obtain ⟨k, hk⟩ := hb b hbb
          exact ⟨st.createCalls, k, hk⟩

/-- Through the outer `while True` loop: a normal return appends exactly
one info, whose `build` is non-null only with a successful create. -/
theorem select_loop_appends_one (env : OrchEnv) (cfg : OrchConfig)
    (platform : String) (clusters : List Cluster) :
    ∀ (fuel : Nat) (pst : ProbeState) (retry : RetryContexts) (wst : WorkerState)
      (pst' : ProbeState) (wst' : WorkerState),
      select_loop env cfg platform clusters fuel pst retry wst =
        some (pst', wst', .ok ()) →
      ∃ bi, wst'.worker_builds = wst.worker_builds ++ [bi] ∧
        ∀ b, bi.build = some b → ∃ i k, env.createResult i k = .ok b := by
  intro fuel
  induction fuel with
  | zero =>
    intro pst retry wst pst' wst' h
    exact absurd h (by simp [select_loop])
  | succ fuel ih =>
    intro pst retry wst pst' wst' h
    rw [select_loop] at h
    rcases hg : get_clusters env platform cfg.find_cluster_retry_delay (fuel + 1)
        pst retry clusters with - | ⟨pst2, retry2, ⟨⟩ | infos⟩
    · rw [hg] at h
      exact absurd h (by simp)
    · -- AllClustersFailedException: the sentinel info is appended
      rw [hg] at h
      simp only [Option.some.injEq, Prod.mk.injEq] at h
      refine ⟨⟨none, none, platform, some (.reprStr "AllClustersFailedException")⟩,
        ?_, ?_⟩
      · rw [← h.2.1]
      · intro b hb
        exact absurd hb (by simp)
    · rw [hg] at h
      simp only at h
      rcases htc : tryClusters env cfg infos retry2 pst2.now wst
        with ⟨retry3, wst3, - | r4⟩
      · -- all candidates failed transiently: loop again
        have hchar := tryClusters_worker_builds env cfg infos retry2 pst2.now wst
        rw [htc] at hchar
        rcases hchar with ⟨-, hunch⟩ | ⟨r', bi, hbad, -⟩
        · rw [htc] at h
          simp only at h hunch
          obtain ⟨bi, happ, hb⟩ := ih pst2 retry3 wst3 pst' wst' h
          rw [hunch] at happ
          exact ⟨bi, happ, hb⟩
        · exact absurd hbad (by simp)
      · -- an attempt concluded
        have hchar := tryClusters_worker_builds env cfg infos retry2 pst2.now wst
        rw [htc] at hchar
        rcases hchar with ⟨hbad, -⟩ | ⟨r', bi, hr, happ, hb⟩
        · exact absurd hbad (by simp)
        · rw [htc] at h
          simp only [Option.some.injEq, Prod.mk.injEq] at h
          simp only at happ
          refine ⟨bi, ?_, hb⟩
          rw [← h.2.1, happ]

/-- C2: whenever `select_and_start_cluster` returns normally — a cluster
succeeded, every cluster exhausted its retries (sentinel entry), or
creation failed non-transiently — exactly one `WorkerBuildInfo` has been
appended to the orchestrator's `worker_builds` list, and its `build`
field is non-null only if some `create_worker_build` call returned a
build. -/
theorem select_and_start_cluster_appends_one (env : OrchEnv) (cfg : OrchConfig)
    (platform : String) (clusters : List Cluster) (fuel : Nat)
    (pst pst' : ProbeState) (wst wst' : WorkerState)
    (h : select_and_start_cluster env cfg platform clusters fuel pst wst =
      some (pst', wst', .ok ())) :
    ∃ bi, wst'.worker_builds = wst.worker_builds ++ [bi] ∧
      ∀ b, bi.build = some b → ∃ i k, env.createResult i k = .ok b := by
  rw [select_and_start_cluster] at h
  by_cases hcl : clusters = []
  · rw [if_pos hcl] at h
    simp at h
  · rw [if_neg hcl] at h
    rcases hsl : select_loop env cfg platform clusters fuel pst
        (fun _ => ClusterRetryContext.init cfg.max_cluster_fails) wst
      with - | ⟨pst2, wst2, e | ⟨⟩⟩
    · rw [hsl] at h
      exact absurd h (by simp)
    · rw [hsl] at h
      simp at h
    · rw [hsl] at h
      simp only [Option.some.injEq, Prod.mk.injEq] at h
      obtain ⟨bi, happ, hb⟩ := select_loop_appends_one env cfg platform clusters
        fuel pst (fun _ => ClusterRetryContext.init cfg.max_cluster_fails) wst
        pst2 wst2 hsl
      exact ⟨bi, h.2.1 ▸ happ, hb⟩

/-- Happy-path environment: probes report zero active builds, creates
succeed, monitoring is silent. -/
def envHappy : OrchEnv :=
  { probeResult := fun _ => .ok 0
    createResult := fun _ _ => .ok ⟨"w1"⟩
    monitorResult := fun _ => none
    buildFinished := fun _ => true
    cancelResult := fun _ => none }

/-- Witness for C2: a happy-path run with one cluster appends exactly
the one info with a non-null build. -/
theorem select_and_start_cluster_appends_one_witness :
    ∃ bi, (⟨1, [⟨some ⟨"w1"⟩, some ⟨"a", 1, 10⟩, "x86_64", none⟩]⟩ :
        WorkerState).worker_builds =
      (⟨0, []⟩ : WorkerState).worker_builds ++ [bi] ∧
      ∀ b, bi.build = some b → ∃ i k, envHappy.createResult i k = .ok b :=
  select_and_start_cluster_appends_one envHappy cfgDefault "x86_64"
    [⟨"a", 1, 10⟩] 2 ⟨0, 0⟩ ⟨0, 1⟩ ⟨0, []⟩
    ⟨1, [⟨some ⟨"w1"⟩, some ⟨"a", 1, 10⟩, "x86_64", none⟩]⟩ (by decide)

end AtomicReactor
